import Mathlib

set_option maxHeartbeats 1000000

/-- A 4-dimensional rational tensor: shape metadata (n0, n1, n2, n3) together with a
total valuation function.  Entries outside the recorded shape are irrelevant; every
statement about a tensor quantifies only over in-range indices (or holds for all
indices when the defining formula does).  Rationals stand in for the float values of
the original program; none of the claims below is about rounding. -/
structure T4 where
  n0 : Nat
  n1 : Nat
  n2 : Nat
  n3 : Nat
  val : Nat → Nat → Nat → Nat → ℚ

/-- A 5-dimensional rational tensor, same conventions as `T4`. -/
structure T5 where
  n0 : Nat
  n1 : Nat
  n2 : Nat
  n3 : Nat
  n4 : Nat
  val : Nat → Nat → Nat → Nat → Nat → ℚ

/-- Finite sum f 0 + ... + f (n - 1), modelling paddle.sum along an axis of length n. -/
def sumTo (f : Nat → ℚ) : Nat → ℚ
  | 0 => 0
  | n + 1 => sumTo f n + f n

/-- Modelled from the spec: `make_coordinate_grid` lives in `modules/util.py`, which is
not among the sources at hand.  Per the spec (section 4.1) entry (i, j) of the grid is
(x_j, y_i) with x linearly spaced over [-1, 1] across the w columns and y linearly
spaced over [-1, 1] across the h rows (align-corners convention).  The last axis is
indexed by d: d = 0 selects the x coordinate, any other d selects the y coordinate. -/
def make_coordinate_grid (h w : Nat) (i j d : Nat) : ℚ :=
  if d = 0 then 2 * (j : ℚ) / ((w : ℚ) - 1) - 1 else 2 * (i : ℚ) / ((h : ℚ) - 1) - 1

/-- Entry (r, c) of the product of two 2x2 matrices, as paddle.matmul computes it on
the trailing two axes. -/
def mat2mul (A B : Nat → Nat → ℚ) : Nat → Nat → ℚ := fun r c =>
  A r 0 * B 0 c + A r 1 * B 1 c

/-- Determinant of a 2x2 matrix. -/
def mat2det (A : Nat → Nat → ℚ) : ℚ := A 0 0 * A 1 1 - A 0 1 * A 1 0

/-- Inverse of a 2x2 matrix (adjugate over determinant), modelling paddle.inverse on the
trailing two axes.  On a singular matrix the rational division by zero yields zero
entries; the spec (section 9) records the singular case as an open policy point and no
claim below depends on it. -/
def mat2inv (A : Nat → Nat → ℚ) : Nat → Nat → ℚ := fun r c =>
  (if r = 0 then (if c = 0 then A 1 1 else -(A 0 1))
   else (if c = 0 then -(A 1 0) else A 0 0)) / mat2det A

/-- The 2x2 identity matrix. -/
def id2 : Nat → Nat → ℚ := fun r c => if r = c then 1 else 0

/-- A keypoint dictionary: `value` has shape (bs, nk, 2), indexed (b, k, d) with d = 0
the x coordinate and d = 1 the y coordinate; `jacobian`, when the key is present, has
shape (bs, nk, 2, 2), indexed (b, k, r, c).  The optional field models presence of the
'jacobian' key in the python dict. -/
structure KP where
  bs : Nat
  nk : Nat
  value : Nat → Nat → Nat → ℚ
  jacobian : Option (Nat → Nat → Nat → Nat → ℚ)

/-- The configuration state of DenseMotionNetwork that the claims depend on.  The
learned modules (hourglass, mask and occlusion convolutions) carry externally trained
weights and enter the forward computation as explicit arguments; `occlusion` records
whether `self.occlusion` was set to a convolution (estimate_occlusion_map) or None. -/
structure DenseMotionNetwork where
  num_kp : Nat
  occlusion : Bool
  scale_factor : ℚ
  kp_variance : ℚ

/-- Constructor `__init__` (dense_motion.py lines 14-32): stores num_kp, scale_factor, kp_variance
and creates the occlusion convolution exactly when estimate_occlusion_map is true. -/
def DenseMotionNetwork.init (num_kp : Nat) (estimate_occlusion_map : Bool)
    (scale_factor kp_variance : ℚ) : DenseMotionNetwork :=
  ⟨num_kp, estimate_occlusion_map, scale_factor, kp_variance⟩

/-- Modelled from the spec: `kp2gaussian` lives in `modules/util.py`, which is not
among the sources at hand.  Per the spec (section 4.2) the value at spatial location
(i, j) for keypoint k is exp(-0.5 * ||grid_point - keypoint||^2 / variance), over the
same normalized grid as `make_coordinate_grid`.  The exponential of the original
program is a float library routine; it is passed in as the function `exp`. -/
def kp2gaussian (exp : ℚ → ℚ) (kp : KP) (h w : Nat) (kp_variance : ℚ) : T4 :=
  ⟨kp.bs, kp.nk, h, w, fun b k i j =>
    exp (-(1 / 2) * (((make_coordinate_grid h w i j 0 - kp.value b k 0) ^ 2 +
      (make_coordinate_grid h w i j 1 - kp.value b k 1) ^ 2) / kp_variance))⟩

/-- Method `create_heatmap_representations` (dense_motion.py lines 34-47): gaussian of the
driving keypoints minus gaussian of the source keypoints, an all-zero background
channel concatenated in front along axis 1, and a singleton depth axis inserted at
position 2.  Output shape (bs, K + 1, 1, h, w) with bs taken from the driving
gaussian and h, w from the source image. -/
def create_heatmap_representations (net : DenseMotionNetwork) (exp : ℚ → ℚ)
    (source_image : T4) (kp_d kp_s : KP) : T5 :=
  let gaussian_driving := kp2gaussian exp kp_d source_image.n2 source_image.n3 net.kp_variance
  let gaussian_source := kp2gaussian exp kp_s source_image.n2 source_image.n3 net.kp_variance
  ⟨gaussian_driving.n0, gaussian_driving.n1 + 1, 1, source_image.n2, source_image.n3,
    fun b k _ i j =>
      if k = 0 then 0
      else gaussian_driving.val b (k - 1) i j - gaussian_source.val b (k - 1) i j⟩

/-- The no-jacobian branch of `create_sparse_motions` (dense_motion.py lines 53-56 and
70-75): entry 0 is the identity grid, entry k + 1 is grid - kp_driving.value[k] +
kp_source.value[k], broadcast over the grid. -/
def sparseMotionsPlain (net : DenseMotionNetwork) (bs h w : Nat) (kp_d kp_s : KP) : T5 :=
  ⟨bs, net.num_kp + 1, h, w, 2, fun b k i j d =>
    if k = 0 then make_coordinate_grid h w i j d
    else (make_coordinate_grid h w i j d - kp_d.value b (k - 1) d) + kp_s.value b (k - 1) d⟩

/-- The jacobian branch of `create_sparse_motions` (dense_motion.py lines 57-75).  The
source reshapes (bs, K, ...) to (bs * K, ...), tiles the per-keypoint 2x2 matrix over
the grid, applies a batched matrix-vector product and reshapes back; flattening the
leading (b, k) axes and restoring them is the identity regrouping, so the computation
is the per-(b, k) product J = kp_source.jacobian * inverse(kp_driving.jacobian)
applied to the offset grid, then kp_source.value added. -/
def sparseMotionsJac (net : DenseMotionNetwork) (bs h w : Nat) (kp_d kp_s : KP)
    (jd js : Nat → Nat → Nat → Nat → ℚ) : T5 :=
  ⟨bs, net.num_kp + 1, h, w, 2, fun b k i j d =>
    if k = 0 then make_coordinate_grid h w i j d
    else
      (mat2mul (js b (k - 1)) (mat2inv (jd b (k - 1))) d 0 *
         (make_coordinate_grid h w i j 0 - kp_d.value b (k - 1) 0) +
       mat2mul (js b (k - 1)) (mat2inv (jd b (k - 1))) d 1 *
         (make_coordinate_grid h w i j 1 - kp_d.value b (k - 1) 1)) +
      kp_s.value b (k - 1) d⟩

/-- Method `create_sparse_motions` (dense_motion.py lines 49-75).  The branch on the presence
of the 'jacobian' key tests only kp_driving; when it is present, the read of
kp_source['jacobian'] raises KeyError if that dict lacks the key — modelled as `none`.
When kp_driving lacks the key the jacobian step is skipped regardless of kp_source. -/
def create_sparse_motions (net : DenseMotionNetwork) (source_image : T4)
    (kp_d kp_s : KP) : Option T5 :=
  match kp_d.jacobian, kp_s.jacobian with
  | some jd, some js =>
      some (sparseMotionsJac net source_image.n0 source_image.n2 source_image.n3 kp_d kp_s jd js)
  | some _, none => none
  | none, _ =>
      some (sparseMotionsPlain net source_image.n0 source_image.n2 source_image.n3 kp_d kp_s)

/-- Pixel read with zero padding: position (y, x) in integer pixel coordinates, zero
outside the h x w extent (padding_mode='zeros'). -/
def gridSamplePix (h w : Nat) (img : Nat → Nat → ℚ) (y x : ℤ) : ℚ :=
  if 0 ≤ y ∧ y < (h : ℤ) ∧ 0 ≤ x ∧ x < (w : ℤ) then img y.toNat x.toNat else 0

/-- Bilinear sampling of one h x w channel at normalized coordinates (x, y), the
semantics of F.grid_sample(..., mode='bilinear', padding_mode='zeros',
align_corners=True): -1 and +1 map exactly to the first and last pixel centers, the
four surrounding pixels are blended by bilinear weights, out-of-range reads are 0. -/
def gridSample1 (h w : Nat) (img : Nat → Nat → ℚ) (x y : ℚ) : ℚ :=
  let ix : ℚ := (x + 1) / 2 * ((w : ℚ) - 1)
  let iy : ℚ := (y + 1) / 2 * ((h : ℚ) - 1)
  let x0 : ℤ := Int.floor ix
  let y0 : ℤ := Int.floor iy
  let tx : ℚ := ix - (x0 : ℚ)
  let ty : ℚ := iy - (y0 : ℚ)
  (1 - tx) * (1 - ty) * gridSamplePix h w img y0 x0 +
  tx * (1 - ty) * gridSamplePix h w img y0 (x0 + 1) +
  (1 - tx) * ty * gridSamplePix h w img (y0 + 1) x0 +
  tx * ty * gridSamplePix h w img (y0 + 1) (x0 + 1)

/-- Method `create_deformed_source_image` (dense_motion.py lines 77-89), with the reshape and
tile steps embedded by their index arithmetic.  The source image is reshaped to
(bs * c, h, w), tiled along axis 0 with factor K + 1 (paddle.tile repeats the whole
flattened stack, so element m of the tiled stack is element m mod (bs * c) of the
original), then reshaped to (bs * (K + 1), c, h, w); the sparse motion stack is
reshaped to (bs * (K + 1), h, w, 2); row n is sampled with grid row n and the result
is reshaped to (bs, K + 1, c, h, w).  Hence output entry (b, k, cc, i, j) samples the
source channel at batch-flattened position (n * c + cc) mod (bs * c) where
n = b * (K + 1) + k, and uses the motion of (n / (K + 1), n mod (K + 1)). -/
def create_deformed_source_image (net : DenseMotionNetwork) (source_image : T4)
    (sparse_motions : T5) : T5 :=
  let bs := source_image.n0
  let c := source_image.n1
  let h := source_image.n2
  let w := source_image.n3
  ⟨bs, net.num_kp + 1, c, h, w, fun b k cc i j =>
    let n := b * (net.num_kp + 1) + k
    let m := (n * c + cc) % (bs * c)
    gridSample1 h w (fun y x => source_image.val (m / c) (m % c) y x)
      (sparse_motions.val (n / (net.num_kp + 1)) (n % (net.num_kp + 1)) i j 0)
      (sparse_motions.val (n / (net.num_kp + 1)) (n % (net.num_kp + 1)) i j 1)⟩

/-- The deformed source stack as the spec and claim C1 describe it: entry (b, k) is
source image b bilinearly sampled at the coordinates of sparse motion field (b, k).
This follows the spec words (section 4.5) and exists to be compared with
`create_deformed_source_image`, which embeds the code. -/
def create_deformed_source_image_spec (net : DenseMotionNetwork) (source_image : T4)
    (sparse_motions : T5) : T5 :=
  ⟨source_image.n0, net.num_kp + 1, source_image.n1, source_image.n2, source_image.n3,
    fun b k cc i j =>
      gridSample1 source_image.n2 source_image.n3
        (fun y x => source_image.val b cc y x)
        (sparse_motions.val b k i j 0) (sparse_motions.val b k i j 1)⟩

/-- Two-dimensional convolution with zero padding, the semantics of nn.Conv2D with a (kh, kw)
kernel and (ph, pw) padding: output channel oc at (i, j) is the bias plus the sum over
input channels and kernel positions of weight times the zero-padded input read at
(i + u - ph, j + v - pw).  Output spatial extent n + 2 * p + 1 - k. -/
def conv2d (outC kh kw ph pw : Nat) (weight : Nat → Nat → Nat → Nat → ℚ)
    (bias : Nat → ℚ) (t : T4) : T4 :=
  ⟨t.n0, outC, t.n2 + 2 * ph + 1 - kh, t.n3 + 2 * pw + 1 - kw, fun b oc i j =>
    bias oc + sumTo (fun ic => sumTo (fun u => sumTo (fun v =>
      weight oc ic u v *
        (if ph ≤ i + u ∧ i + u - ph < t.n2 ∧ pw ≤ j + v ∧ j + v - pw < t.n3
         then t.val b ic (i + u - ph) (j + v - pw) else 0)) kw) kh) t.n1⟩

/-- Softmax along axis 1, the semantics of F.softmax(..., axis=1): each entry is its
exponential divided by the sum of the exponentials of the n1 entries sharing the
same (b, i, j).  The float exponential is passed in as `exp`. -/
def softmaxAxis1 (exp : ℚ → ℚ) (t : T4) : T4 :=
  ⟨t.n0, t.n1, t.n2, t.n3, fun b k i j =>
    exp (t.val b k i j) / sumTo (fun q => exp (t.val b q i j)) t.n1⟩

/-- The logistic sigmoid 1 / (1 + exp (-x)), the semantics of F.sigmoid. -/
def sigmoid (exp : ℚ → ℚ) (x : ℚ) : ℚ := 1 / (1 + exp (-x))

/-- Elementwise sigmoid over a 4-dimensional tensor. -/
def sigmoidT (exp : ℚ → ℚ) (t : T4) : T4 :=
  ⟨t.n0, t.n1, t.n2, t.n3, fun b k i j => sigmoid exp (t.val b k i j)⟩

/-- Lines 92-93 of dense_motion.py: when scale_factor is not 1 the source image is
replaced by its anti-alias downsampled version.  `down` stands for the
AntiAliasInterpolation2d module of modules/util.py, which is not among the sources at
hand; the spec (section 2) treats it as a blurred strided downsampler and claims
depending on its output only assume its result dimensions. -/
def workingSource (net : DenseMotionNetwork) (down : T4 → T4) (source_image : T4) : T4 :=
  if net.scale_factor ≠ 1 then down source_image else source_image

/-- The output dictionary of DenseMotionNetwork.forward: keys sparse_deformed, mask,
deformation always present, occlusion_map present only when the occlusion head
exists. -/
structure OutDict where
  sparse_deformed : T5
  mask : T4
  deformation : T4
  occlusion_map : Option T4

/-- Method `forward` (dense_motion.py lines 91-119).  The learned modules enter as
arguments: `hourglass` stands for the Hourglass refinement network of
modules/util.py (not among the sources at hand; per the spec, section 4.6, a black
box preserving batch and spatial extent), mW/mB and oW/oB are the weights and biases
of the mask and occlusion 7x7 convolutions built in __init__, and `exp` is the float
exponential used by softmax and sigmoid.  The concatenation of the heatmap stack and
the deformed stack along axis 2 followed by the reshape to (bs, -1, h, w) merges the
keypoint axis into the channel axis: channel ch splits as k = ch / (1 + c) and
d = ch mod (1 + c), with d = 0 the heatmap slot.  The final deformation transposes
sparse motion to (bs, K + 1, 2, h, w), multiplies by the mask broadcast over the
coordinate axis, sums over axis 1 and transposes back, i.e. entry (b, i, j, d) is the
sum over k of sparse_motion (b, k, i, j, d) times mask (b, k, i, j). -/
def DenseMotionNetwork.forward (net : DenseMotionNetwork) (down hourglass : T4 → T4)
    (mW : Nat → Nat → Nat → Nat → ℚ) (mB : Nat → ℚ)
    (oW : Nat → Nat → Nat → Nat → ℚ) (oB : Nat → ℚ)
    (exp : ℚ → ℚ) (source_image : T4) (kp_d kp_s : KP) : Option OutDict :=
  let src := workingSource net down source_image
  let heatmap_representation := create_heatmap_representations net exp src kp_d kp_s
  (create_sparse_motions net src kp_d kp_s).map (fun sparse_motion =>
    let deformed_source := create_deformed_source_image net src sparse_motion
    let c1 := heatmap_representation.n2 + deformed_source.n2
    let buf : T4 := ⟨src.n0, (net.num_kp + 1) * c1, src.n2, src.n3, fun b ch i j =>
      if ch % c1 < heatmap_representation.n2
      then heatmap_representation.val b (ch / c1) (ch % c1) i j
      else deformed_source.val b (ch / c1) (ch % c1 - heatmap_representation.n2) i j⟩
    let prediction := hourglass buf
    let mask := softmaxAxis1 exp (conv2d (net.num_kp + 1) 7 7 3 3 mW mB prediction)
    let deformation : T4 := ⟨src.n0, src.n2, src.n3, 2, fun b i j d =>
      sumTo (fun k => sparse_motion.val b k i j d * mask.val b k i j) (net.num_kp + 1)⟩
    { sparse_deformed := deformed_source
      mask := mask
      deformation := deformation
      occlusion_map :=
        if net.occlusion then some (sigmoidT exp (conv2d 1 7 7 3 3 oW oB prediction))
        else none })

/-- Extensional equality of 5-dimensional tensors: equal shapes and equal values at
every in-range index. -/
def T5Ext (x y : T5) : Prop :=
  x.n0 = y.n0 ∧ x.n1 = y.n1 ∧ x.n2 = y.n2 ∧ x.n3 = y.n3 ∧ x.n4 = y.n4 ∧
  ∀ a b c d e, a < x.n0 → b < x.n1 → c < x.n2 → d < x.n3 → e < x.n4 →
    x.val a b c d e = y.val a b c d e

/-- A source image pair used on failing inputs: batch 2, one channel, 2 x 2 pixels;
batch 0 holds values 1, 2, 3, 4 and batch 1 holds 10, 11, 12, 13. -/
def srcPair : T4 :=
  ⟨2, 1, 2, 2, fun b _ i j =>
    (if b = 0 then 0 else 9) +
    (if i = 0 then (if j = 0 then 1 else 2) else (if j = 0 then 3 else 4))⟩

/-- A sparse motion stack of shape (2, 2, 2, 2, 2) in which every entry is the
identity grid. -/
def smId : T5 := ⟨2, 2, 2, 2, 2, fun _ _ i j d => make_coordinate_grid 2 2 i j d⟩

/-- A network configuration with one keypoint, no occlusion head, scale factor 1. -/
def netK1 : DenseMotionNetwork := DenseMotionNetwork.init 1 false 1 (1 / 100)

/-- Keypoints for batch 2 with a single keypoint at the origin and no jacobian. -/
def kpZ2 : KP := ⟨2, 1, fun _ _ _ => 0, none⟩

/-- The constant-one stand-in for the exponential: positive everywhere, which is the
only property the softmax and sigmoid range facts consume. -/
def expOne : ℚ → ℚ := fun _ => 1

/-- The identity as a stand-in for the hourglass network; it preserves all shapes. -/
def idT4 : T4 → T4 := fun t => t

/-- A concrete downsampler halving both spatial extents. -/
def halveT4 : T4 → T4 := fun t =>
  ⟨t.n0, t.n1, t.n2 / 2, t.n3 / 2, fun b c i j => t.val b c (2 * i) (2 * j)⟩

/-- All-zero convolution weights. -/
def zeroW : Nat → Nat → Nat → Nat → ℚ := fun _ _ _ _ => 0

/-- All-zero convolution bias. -/
def zeroB : Nat → ℚ := fun _ => 0

/-- A constant batch-1 single-channel 2 x 2 source image. -/
def srcTiny : T4 := ⟨1, 1, 2, 2, fun _ _ _ _ => 1⟩

/-- A batch-1 single keypoint at the origin without jacobian. -/
def kpZ : KP := ⟨1, 1, fun _ _ _ => 0, none⟩

/-- A batch-1 single keypoint at the origin with the identity jacobian. -/
def kpJ : KP := ⟨1, 1, fun _ _ _ => 0, some (fun _ _ => id2)⟩

/-- One keypoint, occlusion head enabled, scale factor 1. -/
def netA : DenseMotionNetwork := DenseMotionNetwork.init 1 true 1 (1 / 100)

/-- One keypoint, occlusion head disabled, scale factor 1. -/
def netB : DenseMotionNetwork := DenseMotionNetwork.init 1 false 1 (1 / 100)

/-- One keypoint, occlusion head enabled, scale factor 1/2. -/
def netC : DenseMotionNetwork := DenseMotionNetwork.init 1 true (1 / 2) (1 / 100)

/-- The sparse motion stack of the no-jacobian tiny input. -/
def smTiny : T5 := (create_sparse_motions netA srcTiny kpZ kpZ).get (by rfl)

/-- The sparse motion stack of the identity-jacobian tiny input. -/
def smJ6 : T5 := (create_sparse_motions netA srcTiny kpJ kpJ).get (by rfl)

/-- The sparse motion stack seen inside forward on the tiny input. -/
def smA : T5 :=
  (create_sparse_motions netA (workingSource netA idT4 srcTiny) kpZ kpZ).get (by rfl)

/-- The forward output on the tiny input, occlusion head enabled. -/
def outA : OutDict :=
  (netA.forward idT4 idT4 zeroW zeroB zeroW zeroB expOne srcTiny kpZ kpZ).get (by rfl)

/-- The forward output on the tiny input, occlusion head disabled. -/
def outB : OutDict :=
  (netB.forward idT4 idT4 zeroW zeroB zeroW zeroB expOne srcTiny kpZ kpZ).get (by rfl)

/-- The forward output on the tiny input at scale factor 1/2. -/
def outC10 : OutDict :=
  (netC.forward halveT4 idT4 zeroW zeroB zeroW zeroB expOne srcTiny kpZ kpZ).get (by rfl)

/-- The occlusion map of `outA`. -/
def omA : T4 := outA.occlusion_map.get (by rfl)

/-- The occlusion map of `outC10`. -/
def omC10 : T4 := outC10.occlusion_map.get (by rfl)

theorem sumTo_nonneg (f : Nat → ℚ) (h : ∀ k, 0 ≤ f k) : ∀ n, 0 ≤ sumTo f n
  | 0 => le_refl 0
  | n + 1 => add_nonneg (sumTo_nonneg f h n) (h n)

theorem sumTo_pos (f : Nat → ℚ) (h : ∀ k, 0 < f k) (n : Nat) (hn : 0 < n) : 0 < sumTo f n := by
  cases n with
  | zero => exact absurd hn (lt_irrefl 0)
  | succ m =>
      exact add_pos_of_nonneg_of_pos (sumTo_nonneg f (fun k => le_of_lt (h k)) m) (h m)

theorem sumTo_div (f : Nat → ℚ) (s : ℚ) : ∀ n, sumTo (fun k => f k / s) n = sumTo f n / s
  | 0 => (zero_div s).symm
  | n + 1 => by rw [sumTo, sumTo, sumTo_div f s n, div_add_div_same]

theorem sumTo_congr (f g : Nat → ℚ) (h : ∀ k, f k = g k) : ∀ n, sumTo f n = sumTo g n
  | 0 => rfl
  | n + 1 => by rw [sumTo, sumTo, sumTo_congr f g h n, h n]

theorem sigmoid_pos (exp : ℚ → ℚ) (hexp : ∀ q, 0 < exp q) (x : ℚ) : 0 < sigmoid exp x :=
  div_pos one_pos (by have := hexp (-x); linarith)

theorem sigmoid_lt_one (exp : ℚ → ℚ) (hexp : ∀ q, 0 < exp q) (x : ℚ) : sigmoid exp x < 1 := by
  unfold sigmoid
  rw [div_lt_one (by have := hexp (-x); linarith)]
  have := hexp (-x); linarith

/-- C1: the claim states that entry (b, k) of the deformed stack equals source image b
sampled at sparse motion (b, k) for every batch size, in particular batch sizes
greater than 1.  The code violates this: with batch size 2, one keypoint, identity
motions, entry (0, 1) of the code's stack evaluates to 10 — pixel (0, 0) of source
image 1 — while the claimed value, pixel (0, 0) of source image 0, is 1.  The tile
along the flattened batch-channel axis pairs motion row (b, k) with the source image
of batch (b * (K + 1) + k) mod bs. -/
theorem dense_motion_C1 :
    (create_deformed_source_image netK1 srcPair smId).val 0 1 0 0 0 = 10 ∧
    (create_deformed_source_image_spec netK1 srcPair smId).val 0 1 0 0 0 = 1 ∧
    ((10 : ℚ) ≠ 1) := by
  refine ⟨?_, ?_, by norm_num⟩ <;>
    norm_num [create_deformed_source_image, create_deformed_source_image_spec, gridSample1,
      gridSamplePix, srcPair, smId, netK1, DenseMotionNetwork.init, make_coordinate_grid]

/-- C5: the claim states that with kp_driving = kp_source the sparse motions are the
identity grid (which holds, witnessed here on one entry) and the deformed stack is
K + 1 copies of the source image.  The code violates the second part for batch size 2:
with both keypoint sets equal (single zero keypoint, no jacobian) the deformed entry
(0, 1) at pixel (0, 0) evaluates to 10 — a pixel of source image 1 — while pixel
(0, 0) of source image 0 is 1. -/
theorem dense_motion_C5 :
    ((create_sparse_motions netK1 srcPair kpZ2 kpZ2).map
      (fun sm => sm.val 0 1 1 0 1)) = some (make_coordinate_grid 2 2 1 0 1) ∧
    ((create_sparse_motions netK1 srcPair kpZ2 kpZ2).map
      (fun sm => (create_deformed_source_image netK1 srcPair sm).val 0 1 0 0 0)) = some 10 ∧
    srcPair.val 0 0 0 0 = 1 ∧ ((10 : ℚ) ≠ 1) := by
  refine ⟨?_, ?_, ?_, by norm_num⟩ <;>
    norm_num [create_sparse_motions, sparseMotionsPlain, kpZ2, create_deformed_source_image,
      gridSample1, gridSamplePix, srcPair, netK1, DenseMotionNetwork.init, make_coordinate_grid]

/-- C2, counterexample: the claim states that jacobian presence on exactly one of the
two keypoint sets makes the forward call fail fast in both directions.  In the
direction where kp_source carries the jacobian and kp_driving does not, the call
succeeds and produces the same sparse motions as if neither carried one. -/
theorem dense_motion_C2_counterexample :
    (netA.forward idT4 idT4 zeroW zeroB zeroW zeroB expOne srcTiny kpZ kpJ).isSome = true ∧
    create_sparse_motions netA srcTiny kpZ kpJ = create_sparse_motions netA srcTiny kpZ kpZ := by
  exact ⟨rfl, rfl⟩

/-- C2, amended: if the jacobian is present on kp_driving but absent on kp_source the
forward call fails (the read of kp_source['jacobian'] raises); if it is absent on
kp_driving the forward call silently takes the no-jacobian path, returning the same
result whatever the jacobian field of kp_source holds. -/
theorem dense_motion_C2 (net : DenseMotionNetwork) (down hourglass : T4 → T4)
    (mW : Nat → Nat → Nat → Nat → ℚ) (mB : Nat → ℚ)
    (oW : Nat → Nat → Nat → Nat → ℚ) (oB : Nat → ℚ) (exp : ℚ → ℚ)
    (source_image : T4) (kp_d kp_s : KP) :
    (∀ jd, kp_d.jacobian = some jd → kp_s.jacobian = none →
      net.forward down hourglass mW mB oW oB exp source_image kp_d kp_s = none) ∧
    (kp_d.jacobian = none → ∀ jac,
      net.forward down hourglass mW mB oW oB exp source_image kp_d kp_s =
      net.forward down hourglass mW mB oW oB exp source_image kp_d
        ⟨kp_s.bs, kp_s.nk, kp_s.value, jac⟩) := by
  constructor
  · intro jd hd hs
    simp only [DenseMotionNetwork.forward]
    have hnone : create_sparse_motions net (workingSource net down source_image) kp_d kp_s
        = none := by
      unfold create_sparse_motions
      rw [hd, hs]
    rw [hnone]
    rfl
  · intro hd jac
    obtain ⟨sb, sn, sv, sj⟩ := kp_s
    simp only [DenseMotionNetwork.forward, create_heatmap_representations, kp2gaussian,
      create_sparse_motions, sparseMotionsPlain, create_deformed_source_image, hd]

/-- C2, witness for the amended statement: at a concrete asymmetric input the
driving-has-jacobian direction returns no result, and the source-has-jacobian
direction equals the call with the jacobian field replaced. -/
theorem dense_motion_C2_witness :
    netA.forward idT4 idT4 zeroW zeroB zeroW zeroB expOne srcTiny kpJ kpZ = none ∧
    netA.forward idT4 idT4 zeroW zeroB zeroW zeroB expOne srcTiny kpZ kpJ =
      netA.forward idT4 idT4 zeroW zeroB zeroW zeroB expOne srcTiny kpZ
        ⟨kpZ.bs, kpZ.nk, kpZ.value, kpJ.jacobian⟩ := by
  constructor
  · exact (dense_motion_C2 netA idT4 idT4 zeroW zeroB zeroW zeroB expOne srcTiny kpJ
      kpZ).1 (fun _ _ => id2) rfl rfl
  · exact (dense_motion_C2 netA idT4 idT4 zeroW zeroB zeroW zeroB expOne srcTiny kpZ
      kpJ).2 rfl kpJ.jacobian

/-- C3: for every successful forward call the deformation output has shape
(batch, h, w, 2) at the working resolution, and its value at (b, i, j, d) is the sum
over the K + 1 axis of the mask entry times the sparse motion entry. -/
theorem dense_motion_C3 (net : DenseMotionNetwork) (down hourglass : T4 → T4)
    (mW : Nat → Nat → Nat → Nat → ℚ) (mB : Nat → ℚ)
    (oW : Nat → Nat → Nat → Nat → ℚ) (oB : Nat → ℚ) (exp : ℚ → ℚ)
    (source_image : T4) (kp_d kp_s : KP) (out : OutDict) (sm : T5)
    (hsm : create_sparse_motions net (workingSource net down source_image) kp_d kp_s = some sm)
    (hfwd : net.forward down hourglass mW mB oW oB exp source_image kp_d kp_s = some out) :
    out.deformation.n0 = (workingSource net down source_image).n0 ∧
    out.deformation.n1 = (workingSource net down source_image).n2 ∧
    out.deformation.n2 = (workingSource net down source_image).n3 ∧
    out.deformation.n3 = 2 ∧
    ∀ b i j d, out.deformation.val b i j d =
      sumTo (fun k => out.mask.val b k i j * sm.val b k i j d) (net.num_kp + 1) := by
  simp only [DenseMotionNetwork.forward] at hfwd
  rw [hsm, Option.map_some'] at hfwd
  injection hfwd with hfwd
  subst hfwd
  refine ⟨rfl, rfl, rfl, rfl, fun b i j d => ?_⟩
  exact sumTo_congr _ _ (fun k => mul_comm _ _) _

/-- C3, witness: the deformation of the tiny forward output decomposes as the
mask-weighted sum of its sparse motions. -/
theorem dense_motion_C3_witness :
    outA.deformation.n3 = 2 ∧
    outA.deformation.val 0 0 0 0 =
      sumTo (fun k => outA.mask.val 0 k 0 0 * smA.val 0 k 0 0 0) 2 := by
  have h := dense_motion_C3 netA idT4 idT4 zeroW zeroB zeroW zeroB expOne srcTiny kpZ kpZ
    outA smA (Option.some_get (by rfl)).symm (Option.some_get (by rfl)).symm
  exact ⟨h.2.2.2.1, h.2.2.2.2 0 0 0 0⟩

/-- C4: whenever create_sparse_motions returns a stack, its entry 0 is the identity
coordinate grid at the source image resolution, for every batch index and
independently of the keypoint values and jacobians. -/
theorem dense_motion_C4 (net : DenseMotionNetwork) (source_image : T4) (kp_d kp_s : KP)
    (sm : T5) (h : create_sparse_motions net source_image kp_d kp_s = some sm) :
    sm.n1 = net.num_kp + 1 ∧
    ∀ b i j d, sm.val b 0 i j d = make_coordinate_grid source_image.n2 source_image.n3 i j d := by
  unfold create_sparse_motions at h
  cases hd : kp_d.jacobian with
  | none =>
      cases hs : kp_s.jacobian <;> rw [hd, hs] at h <;>
        (injection h with h; subst h; exact ⟨rfl, fun b i j d => rfl⟩)
  | some jd =>
      cases hs : kp_s.jacobian with
      | none => rw [hd, hs] at h; cases h
      | some js =>
          rw [hd, hs] at h
          injection h with h
          subst h
          exact ⟨rfl, fun b i j d => rfl⟩

/-- C4, witness: on a concrete no-jacobian input the background entry matches the
identity grid. -/
theorem dense_motion_C4_witness :
    smTiny.n1 = 2 ∧ smTiny.val 0 0 1 1 0 = make_coordinate_grid 2 2 1 1 0 := by
  have h := dense_motion_C4 netA srcTiny kpZ kpZ smTiny (Option.some_get (by rfl)).symm
  exact ⟨h.1, h.2 0 1 1 0⟩

/-- C6: when both keypoint sets carry jacobians that equal the 2x2 identity matrix at
every keypoint, create_sparse_motions agrees, shape and all in-range entries, with the
call in which neither carries a jacobian. -/
theorem dense_motion_C6 (net : DenseMotionNetwork) (source_image : T4)
    (bd nd bs2 ns2 : Nat) (vd vs : Nat → Nat → Nat → ℚ)
    (jd js : Nat → Nat → Nat → Nat → ℚ) (smJ smN : T5)
    (hjd : ∀ b k r c, r < 2 → c < 2 → jd b k r c = id2 r c)
    (hjs : ∀ b k r c, r < 2 → c < 2 → js b k r c = id2 r c)
    (hJ : create_sparse_motions net source_image ⟨bd, nd, vd, some jd⟩
      ⟨bs2, ns2, vs, some js⟩ = some smJ)
    (hN : create_sparse_motions net source_image ⟨bd, nd, vd, none⟩
      ⟨bs2, ns2, vs, none⟩ = some smN) :
    T5Ext smJ smN := by
  unfold create_sparse_motions at hJ hN
  injection hJ with hJ
  injection hN with hN
  subst hJ
  subst hN
  refine ⟨rfl, rfl, rfl, rfl, rfl, fun a b c d e ha hb hc hd2 he => ?_⟩
  dsimp only [sparseMotionsJac, sparseMotionsPlain]
  by_cases hb0 : b = 0
  · rw [if_pos hb0, if_pos hb0]
  · rw [if_neg hb0, if_neg hb0]
    have he' : e < 2 := he
    have he2 : e = 0 ∨ e = 1 := by omega
    rcases he2 with rfl | rfl <;>
      simp only [mat2mul, mat2inv, mat2det,
        hjd a (b - 1) 0 0 (by omega) (by omega), hjd a (b - 1) 0 1 (by omega) (by omega),
        hjd a (b - 1) 1 0 (by omega) (by omega), hjd a (b - 1) 1 1 (by omega) (by omega),
        hjs a (b - 1) 0 0 (by omega) (by omega), hjs a (b - 1) 0 1 (by omega) (by omega),
        hjs a (b - 1) 1 0 (by omega) (by omega), hjs a (b - 1) 1 1 (by omega) (by omega),
        id2] <;> norm_num

/-- C6, witness: identity jacobians on the tiny input give the same stack as no
jacobians. -/
theorem dense_motion_C6_witness : T5Ext smJ6 smTiny :=
  dense_motion_C6 netA srcTiny 1 1 1 1 (fun _ _ _ => 0) (fun _ _ _ => 0)
    (fun _ _ => id2) (fun _ _ => id2) smJ6 smTiny
    (fun _ _ _ _ _ _ => rfl) (fun _ _ _ _ _ _ => rfl)
    (Option.some_get (by rfl)).symm (Option.some_get (by rfl)).symm

/-- C7: for every successful forward call, whatever the refinement network returns,
every mask entry is non-negative and the entries at each (batch, i, j) sum to 1 over
the K + 1 axis, provided the exponential is everywhere positive. -/
theorem dense_motion_C7 (net : DenseMotionNetwork) (down hourglass : T4 → T4)
    (mW : Nat → Nat → Nat → Nat → ℚ) (mB : Nat → ℚ)
    (oW : Nat → Nat → Nat → Nat → ℚ) (oB : Nat → ℚ) (exp : ℚ → ℚ)
    (source_image : T4) (kp_d kp_s : KP) (out : OutDict)
    (hexp : ∀ q, 0 < exp q)
    (hfwd : net.forward down hourglass mW mB oW oB exp source_image kp_d kp_s = some out) :
    (∀ b k i j, 0 ≤ out.mask.val b k i j) ∧
    out.mask.n1 = net.num_kp + 1 ∧
    (∀ b i j, sumTo (fun k => out.mask.val b k i j) (net.num_kp + 1) = 1) := by
  simp only [DenseMotionNetwork.forward] at hfwd
  cases hc : create_sparse_motions net (workingSource net down source_image) kp_d kp_s with
  | none => rw [hc, Option.map_none'] at hfwd; cases hfwd
  | some sm =>
      rw [hc, Option.map_some'] at hfwd
      injection hfwd with hfwd
      subst hfwd
      refine ⟨fun b k i j => ?_, rfl, fun b i j => ?_⟩
      · dsimp only [softmaxAxis1, conv2d]
        exact le_of_lt (div_pos (hexp _)
          (sumTo_pos _ (fun q => hexp _) _ (Nat.succ_pos _)))
      · dsimp only [softmaxAxis1, conv2d]
        rw [sumTo_div]
        exact div_self (ne_of_gt (sumTo_pos _ (fun q => hexp _) _ (Nat.succ_pos _)))

/-- C7, witness: the tiny forward output's mask is non-negative and sums to 1 over
its two channels. -/
theorem dense_motion_C7_witness :
    (0 : ℚ) ≤ outA.mask.val 0 0 0 0 ∧ outA.mask.n1 = 2 ∧
    sumTo (fun k => outA.mask.val 0 k 0 0) 2 = 1 := by
  have h := dense_motion_C7 netA idT4 idT4 zeroW zeroB zeroW zeroB expOne srcTiny kpZ kpZ
    outA (fun q => one_pos) (Option.some_get (by rfl)).symm
  exact ⟨h.1 0 0 0 0, h.2.1, h.2.2 0 0 0⟩

/-- C8: for every successful forward call of a network built with occlusion flag
`flag`, the output carries an occlusion map exactly when flag is true; when present it
has one channel and, for an everywhere positive exponential, all its values lie
strictly between 0 and 1. -/
theorem dense_motion_C8 (num_kp : Nat) (flag : Bool) (sf kv : ℚ)
    (down hourglass : T4 → T4)
    (mW : Nat → Nat → Nat → Nat → ℚ) (mB : Nat → ℚ)
    (oW : Nat → Nat → Nat → Nat → ℚ) (oB : Nat → ℚ) (exp : ℚ → ℚ)
    (source_image : T4) (kp_d kp_s : KP) (out : OutDict)
    (hexp : ∀ q, 0 < exp q)
    (hfwd : (DenseMotionNetwork.init num_kp flag sf kv).forward down hourglass mW mB oW oB
      exp source_image kp_d kp_s = some out) :
    (out.occlusion_map.isSome = true ↔ flag = true) ∧
    (∀ om, out.occlusion_map = some om →
      om.n1 = 1 ∧ ∀ b ch i j, 0 < om.val b ch i j ∧ om.val b ch i j < 1) := by
  simp only [DenseMotionNetwork.forward] at hfwd
  cases hc : create_sparse_motions (DenseMotionNetwork.init num_kp flag sf kv)
      (workingSource (DenseMotionNetwork.init num_kp flag sf kv) down source_image)
      kp_d kp_s with
  | none => rw [hc, Option.map_none'] at hfwd; cases hfwd
  | some sm =>
      rw [hc, Option.map_some'] at hfwd
      injection hfwd with hfwd
      subst hfwd
      constructor
      · cases flag <;> simp [DenseMotionNetwork.init]
      · intro om hom
        cases flag with
        | false => simp [DenseMotionNetwork.init] at hom
        | true =>
            simp only [DenseMotionNetwork.init, if_true] at hom
            rw [Option.some_inj] at hom
            subst hom
            refine ⟨rfl, fun b ch i j => ⟨?_, ?_⟩⟩
            · exact sigmoid_pos exp hexp _
            · exact sigmoid_lt_one exp hexp _

/-- C8, witness: the tiny forward output with the flag on carries an occlusion map
with one channel and values strictly between 0 and 1; with the flag off it carries
none. -/
theorem dense_motion_C8_witness :
    (outA.occlusion_map.isSome = true ↔ true = true) ∧
    (outB.occlusion_map.isSome = true ↔ false = true) ∧
    omA.n1 = 1 ∧ 0 < omA.val 0 0 0 0 ∧ omA.val 0 0 0 0 < 1 := by
  have hA := dense_motion_C8 1 true 1 (1 / 100) idT4 idT4 zeroW zeroB zeroW zeroB expOne
    srcTiny kpZ kpZ outA (fun q => one_pos) (Option.some_get (by rfl)).symm
  have hB := dense_motion_C8 1 false 1 (1 / 100) idT4 idT4 zeroW zeroB zeroW zeroB expOne
    srcTiny kpZ kpZ outB (fun q => one_pos) (Option.some_get (by rfl)).symm
  have hm := hA.2 omA (Option.some_get (by rfl)).symm
  exact ⟨hA.1, hB.1, hm.1, (hm.2 0 0 0 0).1, (hm.2 0 0 0 0).2⟩

/-- C9: create_heatmap_representations returns a stack of shape (batch, K + 1, 1, h,
w) whose channel 0 is all zeros and whose channel k + 1 is the gaussian heatmap of
driving keypoint k minus the gaussian heatmap of source keypoint k. -/
theorem dense_motion_C9 (net : DenseMotionNetwork) (exp : ℚ → ℚ) (source_image : T4)
    (kp_d kp_s : KP) :
    (create_heatmap_representations net exp source_image kp_d kp_s).n0 = kp_d.bs ∧
    (create_heatmap_representations net exp source_image kp_d kp_s).n1 = kp_d.nk + 1 ∧
    (create_heatmap_representations net exp source_image kp_d kp_s).n2 = 1 ∧
    (create_heatmap_representations net exp source_image kp_d kp_s).n3 = source_image.n2 ∧
    (create_heatmap_representations net exp source_image kp_d kp_s).n4 = source_image.n3 ∧
    (∀ b i j, (create_heatmap_representations net exp source_image kp_d kp_s).val b 0 0 i j = 0) ∧
    (∀ b k i j,
      (create_heatmap_representations net exp source_image kp_d kp_s).val b (k + 1) 0 i j =
      (kp2gaussian exp kp_d source_image.n2 source_image.n3 net.kp_variance).val b k i j -
      (kp2gaussian exp kp_s source_image.n2 source_image.n3 net.kp_variance).val b k i j) :=
  ⟨rfl, rfl, rfl, rfl, rfl, fun _ _ _ => rfl, fun _ _ _ _ => rfl⟩

/-- C10: when scale_factor differs from 1 the forward call computes on the
downsampled source, and every returned tensor — sparse_deformed, mask, deformation,
and the occlusion map when present — has the spatial extents of the downsampled
image, not those of the caller's input.  The hourglass is assumed shape-preserving,
its contract per the spec. -/
theorem dense_motion_C10 (net : DenseMotionNetwork) (down hourglass : T4 → T4)
    (mW : Nat → Nat → Nat → Nat → ℚ) (mB : Nat → ℚ)
    (oW : Nat → Nat → Nat → Nat → ℚ) (oB : Nat → ℚ) (exp : ℚ → ℚ)
    (source_image : T4) (kp_d kp_s : KP) (out : OutDict)
    (hscale : net.scale_factor ≠ 1)
    (hhg : ∀ t : T4, (hourglass t).n0 = t.n0 ∧ (hourglass t).n2 = t.n2 ∧
      (hourglass t).n3 = t.n3)
    (hfwd : net.forward down hourglass mW mB oW oB exp source_image kp_d kp_s = some out) :
    out.sparse_deformed.n3 = (down source_image).n2 ∧
    out.sparse_deformed.n4 = (down source_image).n3 ∧
    out.mask.n2 = (down source_image).n2 ∧
    out.mask.n3 = (down source_image).n3 ∧
    out.deformation.n1 = (down source_image).n2 ∧
    out.deformation.n2 = (down source_image).n3 ∧
    (∀ om, out.occlusion_map = some om →
      om.n2 = (down source_image).n2 ∧ om.n3 = (down source_image).n3) := by
  have hws : workingSource net down source_image = down source_image := if_pos hscale
  simp only [DenseMotionNetwork.forward, hws] at hfwd
  cases hc : create_sparse_motions net (down source_image) kp_d kp_s with
  | none => rw [hc, Option.map_none'] at hfwd; cases hfwd
  | some sm =>
      rw [hc, Option.map_some'] at hfwd
      injection hfwd with hfwd
      subst hfwd
      refine ⟨rfl, rfl, ?_, ?_, rfl, rfl, fun om hom => ?_⟩
      · dsimp only [softmaxAxis1, conv2d]
        rw [(hhg _).2.1]
        show (down source_image).n2 + 2 * 3 + 1 - 7 = (down source_image).n2
        omega
      · dsimp only [softmaxAxis1, conv2d]
        rw [(hhg _).2.2]
        show (down source_image).n3 + 2 * 3 + 1 - 7 = (down source_image).n3
        omega
      · cases hoc : net.occlusion with
        | false => rw [hoc] at hom; simp at hom
        | true =>
            rw [hoc] at hom
            simp only [if_true] at hom
            rw [Option.some_inj] at hom
            subst hom
            constructor
            · dsimp only [sigmoidT, conv2d]
              rw [(hhg _).2.1]
              show (down source_image).n2 + 2 * 3 + 1 - 7 = (down source_image).n2
              omega
            · dsimp only [sigmoidT, conv2d]
              rw [(hhg _).2.2]
              show (down source_image).n3 + 2 * 3 + 1 - 7 = (down source_image).n3
              omega

/-- C10, witness: at scale factor 1/2 on a 2 x 2 input all outputs, occlusion map
included, have the halved spatial extents. -/
theorem dense_motion_C10_witness :
    outC10.mask.n2 = (halveT4 srcTiny).n2 ∧
    outC10.deformation.n1 = (halveT4 srcTiny).n2 ∧
    outC10.sparse_deformed.n3 = (halveT4 srcTiny).n2 ∧
    omC10.n2 = (halveT4 srcTiny).n2 := by
  have h := dense_motion_C10 netC halveT4 idT4 zeroW zeroB zeroW zeroB expOne srcTiny
    kpZ kpZ outC10 (by norm_num [netC, DenseMotionNetwork.init])
    (fun t => ⟨rfl, rfl, rfl⟩) (Option.some_get (by rfl)).symm
  exact ⟨h.2.2.1, h.2.2.2.2.1, h.1,
    (h.2.2.2.2.2.2 omC10 (Option.some_get (by rfl)).symm).1⟩
